import Mathlib

/-!
Shallow embedding of `src/main.py` (dm-data-generalizer): a CSV
generalization pipeline built from three cell-level mappers
(`generalize_job_title`, `generalize_age`, `generalize_city_to_state`)
and a column-wise application loop in `main`.

Cells of a pandas DataFrame loaded from CSV are strings, integers,
floats, or NaN (the pandas encoding of a missing value).  Python `None`
can additionally appear as the output of the city stage when the
generator fails.  Finite Python floats are modelled as exact rationals;
the only finite-float operation the claims exercise is `int()`
truncation toward zero, which agrees with truncation of the rational
value for the inputs considered.  The float64 infinities, which
`read_csv` produces from an `"inf"` token or an overflowing literal,
are a separate constructor: Python `int()` raises `OverflowError` on
them, an exception the age stage does not catch.  Logging calls are
side effects outside the value model and are not represented.
-/

/-- A scalar cell value of the in-memory table. `float` is a finite
float (as an exact rational), `inf` is a float64 infinity (`neg` for
the sign), `nan` is the pandas missing-value float, and `none` is
Python `None`. -/
inductive Value where
  | str (s : String)
  | int (n : Int)
  | float (q : Rat)
  | inf (neg : Bool)
  | nan
  | none
deriving DecidableEq, Repr

/-- Python exceptions relevant to `generalize_age`: `int()` raises
`ValueError` on unparsable strings and on NaN, `TypeError` on `None`,
and `OverflowError` on an infinite float. Only `ValueError` is caught
inside `generalize_age`. -/
inductive PyExc where
  | valueError
  | typeError
  | overflowError
deriving DecidableEq, Repr

instance {ε α : Type} [DecidableEq ε] [DecidableEq α] : DecidableEq (Except ε α) := fun x y =>
  match x, y with
  | .ok a, .ok b =>
    if h : a = b then isTrue (by rw [h]) else isFalse (fun hh => h (Except.ok.inj hh))
  | .error a, .error b =>
    if h : a = b then isTrue (by rw [h]) else isFalse (fun hh => h (Except.error.inj hh))
  | .ok _, .error _ => isFalse (fun hh => Except.noConfusion hh)
  | .error _, .ok _ => isFalse (fun hh => Except.noConfusion hh)

/-- Numeric value of a list of decimal digit characters. -/
def digitsVal (cs : List Char) : Nat :=
  cs.foldl (fun a c => a * 10 + (c.toNat - 48)) 0

/-- No two adjacent underscores (part of the PEP 515 grouping rule for
Python integer literals). -/
def noDoubleUnderscore : List Char → Bool
  | [] => true
  | [_] => true
  | a :: b :: rest => !(a == '_' && b == '_') && noDoubleUnderscore (b :: rest)

/-- A valid unsigned Python integer-literal body: nonempty, every
character a digit or an underscore, first and last characters digits,
and no two adjacent underscores. -/
def digitsOk (cs : List Char) : Bool :=
  !cs.isEmpty
    && cs.all (fun c => c.isDigit || c == '_')
    && (match cs.head? with | some c => c.isDigit | _ => false)
    && (match cs.getLast? with | some c => c.isDigit | _ => false)
    && noDoubleUnderscore cs

/-- Surrounding-whitespace strip, as `int()` applies to its string
argument before parsing. -/
def stripWs (cs : List Char) : List Char :=
  ((cs.dropWhile Char.isWhitespace).reverse.dropWhile Char.isWhitespace).reverse

/-- Python `int(s)` on a string: strip surrounding whitespace, allow an
optional sign, then decimal digits with underscore grouping.  (Unicode
digit forms and non-ASCII whitespace accepted by CPython are not
modelled; no claim involves them.)  `none` models `ValueError`. -/
def str_to_int (s : String) : Option Int :=
  let cs := stripWs s.toList
  let sb : Int × List Char :=
    match cs with
    | '-' :: rest => (-1, rest)
    | '+' :: rest => (1, rest)
    | _ => (1, cs)
  if digitsOk sb.2 then some (sb.1 * (digitsVal (sb.2.filter Char.isDigit) : Int)) else Option.none

/-- Truncation toward zero, the behaviour of Python `int()` on a float. -/
def pytrunc (q : Rat) : Int :=
  if 0 ≤ q then q.floor else q.ceil

/-- Python `int(x)` on a cell value.  On an int it is the identity, on a
finite float it truncates toward zero, on an infinite float it raises
`OverflowError`, on NaN it raises `ValueError`, on a string it parses
(or raises `ValueError`), and on `None` it raises `TypeError`. -/
def py_int : Value → Except PyExc Int
  | .int n => .ok n
  | .float q => .ok (pytrunc q)
  | .inf _ => .error .overflowError
  | .nan => .error .valueError
  | .str s =>
    match str_to_int s with
    | some n => .ok n
    | _ => .error .valueError
  | .none => .error .typeError

/-- `JOB_TITLE_MAPPING` from `src/main.py`, as an association list in
source order. -/
def JOB_TITLE_MAPPING : List (String × String) :=
  [("Software Engineer", "Engineer"),
   ("Data Scientist", "Data Analyst"),
   ("Project Manager", "Manager"),
   ("Accountant", "Finance Professional"),
   ("Teacher", "Educator"),
   ("Nurse", "Healthcare Professional"),
   ("Doctor", "Healthcare Professional"),
   ("Lawyer", "Legal Professional"),
   ("Sales Representative", "Sales Professional"),
   ("Marketing Manager", "Marketing Professional")]

/-- `AGE_RANGES` from `src/main.py`: the eight inclusive age bands, in
source order. -/
def AGE_RANGES : List (Int × Int) :=
  [(18, 25), (26, 35), (36, 45), (46, 55),
   (56, 65), (66, 75), (76, 85), (86, 95)]

/-- `generalize_job_title` from `src/main.py`: exact-match dictionary
lookup with identity fallback. -/
def generalize_job_title (job_title : String) : String :=
  match JOB_TITLE_MAPPING.find? (fun p => p.1 == job_title) with
  | some p => p.2
  | _ => job_title

/-- The `for age_range in AGE_RANGES` loop body of `generalize_age`:
return the formatted label of the first band whose inclusive bounds
contain `age`, else fall through to `"Unknown"`. -/
def scanRanges (age : Int) : List (Int × Int) → String
  | [] => "Unknown"
  | r :: rest =>
    if r.1 ≤ age ∧ age ≤ r.2 then toString r.1 ++ "-" ++ toString r.2
    else scanRanges age rest

/-- `generalize_age` from `src/main.py`.  `int(age)` conversion, a
`[0, 120]` sanity check, then the band scan; `except ValueError` yields
`"Unknown"` (the logged diagnostic is a side effect, not modelled), any
other exception propagates as `.error`. -/
def generalize_age (age : Value) : Except PyExc String :=
  match py_int age with
  | .ok n =>
    if ¬ (0 ≤ n ∧ n ≤ 120) then .ok "Unknown"
    else .ok (scanRanges n AGE_RANGES)
  | .error .valueError => .ok "Unknown"
  | .error e => .error e

/-- One `Faker()` instance, reduced to the observable outcome of its
`state()` call: a generated region name, or a failure. -/
structure Faker where
  state : Except String String

/-- `generalize_city_to_state` from `src/main.py`: draws `fake.state()`,
ignoring the `city` argument; on any exception from the generator it
returns `None` (the logged diagnostic, which alone mentions `city`, is a
side effect and not part of the returned value). -/
def generalize_city_to_state (fake : Faker) (city : String) : Option String :=
  match fake.state with
  | .ok s => some s
  | .error _ => Option.none

/-- `Series.astype(str)` on one cell: the string rendering pandas
produces before the job-title and city mappers run.  A NaN cell renders
as `"nan"`, a `None` cell as `"None"`, and the infinities as `"inf"`
and `"-inf"`.  For a finite float, CPython prints the shortest decimal
that round-trips; that rendering is not modelled (the `Rat` printing
used here differs), and no claim depends on the finite-float branch. -/
def astype_str : Value → String
  | .str s => s
  | .int n => toString n
  | .float q => toString q
  | .inf neg => if neg then "-inf" else "inf"
  | .nan => "nan"
  | .none => "None"

/-! ## The table pipeline of `main` -/

/-- An in-memory pandas DataFrame: a header naming the columns, and the
rows, each a list of cell values aligned with the header. -/
structure Table where
  header : List String
  rows : List (List Value)
deriving DecidableEq, Repr

/-- The parsed CLI arguments that drive the transform: the three
optional column names and the optional `--num_rows` limit. -/
structure Options where
  job_title_column : Option String
  age_column : Option String
  city_column : Option String
  num_rows : Option Int
deriving DecidableEq, Repr

/-- Errors that abort the transform in `main`: the `ValueError` raised
for a missing named column (carrying the CLI argument kind and the
column name it reports), or any other Python exception propagating out
of a column application. -/
inductive TransformError where
  | columnNotFound (argName column : String)
  | unexpected (e : PyExc)
deriving DecidableEq, Repr

/-- `df.head(n)`: for `0 ≤ n` the first `n` rows; for negative `n` all
rows except the last `|n|`. -/
def pdHead (n : Int) (rows : List (List Value)) : List (List Value) :=
  if 0 ≤ n then rows.take n.toNat else rows.take (rows.length - (-n).toNat)

/-- Replace, in one row, the cells of every column named `c` by `f` of
the cell, leaving all other positions unchanged. -/
def applyRow : List String → String → (Value → Value) → List Value → List Value
  | _, _, _, [] => []
  | [], _, _, v :: vs => v :: vs
  | h :: hs, c, f, v :: vs => (if h = c then f v else v) :: applyRow hs c f vs

/-- Fallible variant of `applyRow` for a mapper that can raise: the
first raising cell aborts the whole column application, matching
`Series.apply` (the exception propagates before any assignment). -/
def applyRowE : List String → String → (Value → Except PyExc Value) → List Value →
    Except PyExc (List Value)
  | _, _, _, [] => .ok []
  | [], _, _, v :: vs => .ok (v :: vs)
  | h :: hs, c, f, v :: vs =>
    (if h = c then f v else .ok v).bind fun w =>
      (applyRowE hs c f vs).map fun ws => w :: ws

/-- Map a fallible function over a list, failing on the first error. -/
def mapE (f : α → Except ε β) : List α → Except ε (List β)
  | [] => .ok []
  | a :: as => (f a).bind fun b => (mapE f as).map fun bs => b :: bs

/-- The cell written by the city stage: `generalize_city_to_state`
applied to the string rendering of the cell, with `None` stored when the
generator failed. -/
def cityCell (fake : Faker) (v : Value) : Value :=
  match generalize_city_to_state fake (astype_str v) with
  | some s => .str s
  | _ => .none

/-- The city column application: row `i` uses the `i`-th fresh `Faker`
outcome `gen i` (one `Faker()` is constructed per cell, in row order). -/
def mapCityRows (header : List String) (c : String) (gen : Nat → Except String String) :
    Nat → List (List Value) → List (List Value)
  | _, [] => []
  | i, r :: rs => applyRow header c (cityCell ⟨gen i⟩) r :: mapCityRows header c gen (i + 1) rs

/-- The job-title stage of `main`: check the column exists (else the
`ValueError` reported as `job_title_column`), then
`astype(str).apply(generalize_job_title)` on that column. -/
def stageJob (t : Table) (c : String) : Except TransformError Table :=
  if t.header.contains c then
    .ok ⟨t.header, t.rows.map
      (applyRow t.header c (fun v => .str (generalize_job_title (astype_str v))))⟩
  else .error (.columnNotFound "job_title_column" c)

/-- The age stage of `main`: column-existence check, then
`apply(generalize_age)` on the raw cells; a cell raising anything other
than the handled `ValueError` propagates out as `unexpected`. -/
def stageAge (t : Table) (c : String) : Except TransformError Table :=
  if t.header.contains c then
    match mapE (applyRowE t.header c (fun v => (generalize_age v).map Value.str)) t.rows with
    | .ok rs => .ok ⟨t.header, rs⟩
    | .error e => .error (.unexpected e)
  else .error (.columnNotFound "age_column" c)

/-- The city stage of `main`: column-existence check, then
`astype(str).apply(generalize_city_to_state)` with a fresh `Faker` per
cell, drawn from the outcome stream `gen`. -/
def stageCity (t : Table) (c : String) (gen : Nat → Except String String) :
    Except TransformError Table :=
  if t.header.contains c then
    .ok ⟨t.header, mapCityRows t.header c gen 0 t.rows⟩
  else .error (.columnNotFound "city_column" c)

/-- The `if args.num_rows is not None` truncation step of `main`. -/
def optLimit (lim : Option Int) (t : Table) : Table :=
  match lim with
  | some n => ⟨t.header, pdHead n t.rows⟩
  | _ => t

/-- The `if args.job_title_column` step of `main`. -/
def optJob (oc : Option String) (t : Table) : Except TransformError Table :=
  match oc with
  | some c => stageJob t c
  | _ => .ok t

/-- The `if args.age_column` step of `main`. -/
def optAge (oc : Option String) (t : Table) : Except TransformError Table :=
  match oc with
  | some c => stageAge t c
  | _ => .ok t

/-- The `if args.city_column` step of `main`. -/
def optCity (oc : Option String) (t : Table) (gen : Nat → Except String String) :
    Except TransformError Table :=
  match oc with
  | some c => stageCity t c gen
  | _ => .ok t

/-- The transform pipeline of `main` on a loaded table: optional row
truncation, then the job-title, age, and city stages in source order,
each skipped when its option is unset. -/
def transform (t : Table) (o : Options) (gen : Nat → Except String String) :
    Except TransformError Table :=
  (optJob o.job_title_column (optLimit o.num_rows t)).bind fun t1 =>
    (optAge o.age_column t1).bind fun t2 =>
      optCity o.city_column t2 gen

/-- The observable outcome of one `main` run on a successfully loaded
table: the table written to the output file (`none` when the run failed
before `to_csv`), and the process exit status.  Every exception is
caught and only logged, so `main` returns normally and the process exits
with status 0 in all cases. -/
def run (t : Table) (o : Options) (gen : Nat → Except String String) :
    Option Table × Nat :=
  match transform t o gen with
  | .ok u => (some u, 0)
  | .error _ => (Option.none, 0)

/-- A fixed generator-outcome stream for concrete instantiations. -/
def G0 : Nat → Except String String := fun _ => .ok "Texas"

/-- One-column, one-row table holding an integer, for row-limit
instantiations. -/
def tblOneRow : Table := ⟨["A"], [[Value.int 1]]⟩

/-- Three-column table without a `"Salary"` column, for the
missing-column scenario. -/
def tblPeople : Table :=
  ⟨["Name", "Age", "City"], [[Value.str "Bob", Value.int 30, Value.str "Springfield"]]⟩

/-- One-column age table, for the idempotence counterexample. -/
def tblAge : Table := ⟨["Age"], [[Value.int 30]]⟩

/-- Two-column table, for frame-property instantiations. -/
def tblTwoCols : Table := ⟨["A", "B"], [[Value.str "Software Engineer", Value.int 7]]⟩

/-- `tblTwoCols` after generalizing column `"A"` as job titles. -/
def tblTwoCols' : Table := ⟨["A", "B"], [[Value.str "Engineer", Value.int 7]]⟩

/-- Job-title table holding a NaN cell and an integer cell, exercising
the `astype(str)` coercion. -/
def tblCoerce : Table := ⟨["Job Title"], [[Value.nan], [Value.int 42]]⟩

/-- The cell of `t` at row `i`, column position `j`, when both exist. -/
def cellAt (t : Table) (i j : Nat) : Option Value :=
  (t.rows[i]?).bind fun r => r[j]?

/-- Cell values on which the age mapper cannot raise an uncaught
exception: everything except Python `None` (`int()` raises `TypeError`)
and the float infinities (`int()` raises `OverflowError`); neither is
the `ValueError` the handler catches.  `read_csv` never produces
`None`, but it does produce infinities from an `"inf"` token or an
overflowing literal. -/
def cellOk : Value → Bool
  | .none => false
  | .inf _ => false
  | _ => true

/-- Every cell of the given rows satisfies `cellOk`. -/
def CellsOk (rows : List (List Value)) : Prop :=
  ∀ r ∈ rows, ∀ v ∈ r, cellOk v = true

/-! ## Helper lemmas -/

theorem applyRow_length (hs : List String) (c : String) (f : Value → Value) (vs : List Value) :
    (applyRow hs c f vs).length = vs.length := by
  induction hs generalizing vs with
  | nil => cases vs <;> rfl
  | cons h tl ih =>
    cases vs with
    | nil => rfl
    | cons v vs => simp [applyRow, ih]

theorem applyRow_get_ne (hs : List String) (c : String) (f : Value → Value) (vs : List Value)
    (j : Nat) (hj : hs[j]? ≠ some c) : (applyRow hs c f vs)[j]? = vs[j]? := by
  induction hs generalizing vs j with
  | nil => cases vs <;> rfl
  | cons h tl ih =>
    cases vs with
    | nil => rfl
    | cons v vs =>
      cases j with
      | zero =>
        have : h ≠ c := by simpa using hj
        simp [applyRow, this]
      | succ j =>
        simp only [applyRow, List.getElem?_cons_succ]
        exact ih vs j (by simpa using hj)

theorem applyRow_cellsOk (hs : List String) (c : String) (f : Value → Value) (vs : List Value)
    (hf : ∀ v, cellOk (f v) = true) (hvs : ∀ v ∈ vs, cellOk v = true) :
    ∀ v ∈ applyRow hs c f vs, cellOk v = true := by
  induction hs generalizing vs with
  | nil =>
    cases vs with
    | nil => simp [applyRow]
    | cons v vs => simpa [applyRow] using hvs
  | cons h tl ih =>
    cases vs with
    | nil => simp [applyRow]
    | cons v vs =>
      intro w hw
      simp only [applyRow, List.mem_cons] at hw
      rcases hw with rfl | hw
      · by_cases hc : h = c
        · simpa [hc] using hf v
        · simpa [hc] using hvs v (by simp)
      · exact ih vs (fun u hu => hvs u (by simp [hu])) w hw

theorem applyRowE_ok_length (hs : List String) (c : String) (f : Value → Except PyExc Value)
    (vs ws : List Value) (h : applyRowE hs c f vs = .ok ws) : ws.length = vs.length := by
  induction hs generalizing vs ws with
  | nil =>
    cases vs with
    | nil => cases h; rfl
    | cons v vs => cases h; rfl
  | cons hd tl ih =>
    cases vs with
    | nil => cases h; rfl
    | cons v vs =>
      simp only [applyRowE] at h
      cases hw : (if hd = c then f v else .ok v) with
      | error e => rw [hw] at h; cases h
      | ok w =>
        rw [hw] at h
        cases hrest : applyRowE tl c f vs with
        | error e => rw [hrest] at h; cases h
        | ok ws' =>
          rw [hrest] at h
          cases h
          simp [ih vs ws' hrest]

theorem applyRowE_ok_get_ne (hs : List String) (c : String) (f : Value → Except PyExc Value)
    (vs ws : List Value) (j : Nat) (h : applyRowE hs c f vs = .ok ws)
    (hj : hs[j]? ≠ some c) : ws[j]? = vs[j]? := by
  induction hs generalizing vs ws j with
  | nil =>
    cases vs with
    | nil => cases h; rfl
    | cons v vs => cases h; rfl
  | cons hd tl ih =>
    cases vs with
    | nil => cases h; rfl
    | cons v vs =>
      simp only [applyRowE] at h
      cases hw : (if hd = c then f v else .ok v) with
      | error e => rw [hw] at h; cases h
      | ok w =>
        rw [hw] at h
        cases hrest : applyRowE tl c f vs with
        | error e => rw [hrest] at h; cases h
        | ok ws' =>
          rw [hrest] at h
          cases h
          cases j with
          | zero =>
            have hne : hd ≠ c := by simpa using hj
            rw [if_neg hne] at hw
            cases hw
            simp
          | succ j =>
            have := ih vs ws' j hrest (by simpa using hj)
            simpa using this

theorem applyRowE_ok_of (hs : List String) (c : String) (f : Value → Except PyExc Value)
    (vs : List Value) (hf : ∀ v ∈ vs, ∃ w, f v = .ok w) :
    ∃ ws, applyRowE hs c f vs = .ok ws := by
  induction hs generalizing vs with
  | nil =>
    cases vs with
    | nil => exact ⟨[], rfl⟩
    | cons v vs => exact ⟨v :: vs, rfl⟩
  | cons hd tl ih =>
    cases vs with
    | nil => exact ⟨[], rfl⟩
    | cons v vs =>
      obtain ⟨ws, hws⟩ := ih vs (fun u hu => hf u (by simp [hu]))
      by_cases hc : hd = c
      · obtain ⟨w, hw⟩ := hf v (by simp)
        exact ⟨w :: ws, by simp [applyRowE, hc, hw, hws, Except.bind, Except.map]⟩
      · exact ⟨v :: ws, by simp [applyRowE, hc, hws, Except.bind, Except.map]⟩

theorem mapE_ok_length (f : α → Except ε β) (l : List α) (bs : List β)
    (h : mapE f l = .ok bs) : bs.length = l.length := by
  induction l generalizing bs with
  | nil => cases h; rfl
  | cons a as ih =>
    simp only [mapE] at h
    cases hb : f a with
    | error e => rw [hb] at h; cases h
    | ok b =>
      rw [hb] at h
      cases hrest : mapE f as with
      | error e => rw [hrest] at h; cases h
      | ok bs' =>
        rw [hrest] at h
        cases h
        simp [ih bs' hrest]

theorem mapE_ok_get (f : α → Except ε β) (l : List α) (bs : List β)
    (h : mapE f l = .ok bs) (i : Nat) (a : α) (ha : l[i]? = some a) :
    ∃ b, f a = .ok b ∧ bs[i]? = some b := by
  induction l generalizing bs i with
  | nil => simp at ha
  | cons x xs ih =>
    simp only [mapE] at h
    cases hb : f x with
    | error e => rw [hb] at h; cases h
    | ok b =>
      rw [hb] at h
      cases hrest : mapE f xs with
      | error e => rw [hrest] at h; cases h
      | ok bs' =>
        rw [hrest] at h
        cases h
        cases i with
        | zero =>
          simp only [List.getElem?_cons_zero, Option.some.injEq] at ha
          subst ha
          exact ⟨b, hb, by simp⟩
        | succ i =>
          obtain ⟨b', hb', hbs⟩ := ih bs' hrest i (by simpa using ha)
          exact ⟨b', hb', by simpa using hbs⟩

theorem mapE_ok_of (f : α → Except ε β) (l : List α)
    (hf : ∀ a ∈ l, ∃ b, f a = .ok b) : ∃ bs, mapE f l = .ok bs := by
  induction l with
  | nil => exact ⟨[], rfl⟩
  | cons a as ih =>
    obtain ⟨w, hw⟩ := hf a (List.mem_cons_self a as)
    obtain ⟨ws, hws⟩ := ih fun q hq => hf q (List.mem_cons_of_mem a hq)
    refine ⟨w :: ws, ?_⟩
    simp [mapE, hw, hws, Except.bind, Except.map]

theorem mapCityRows_length (hs : List String) (c : String) (gen : Nat → Except String String)
    (i : Nat) (rows : List (List Value)) :
    (mapCityRows hs c gen i rows).length = rows.length := by
  induction rows generalizing i with
  | nil => rfl
  | cons r rs ih => simp [mapCityRows, ih]

theorem mapCityRows_get (hs : List String) (c : String) (gen : Nat → Except String String)
    (i k : Nat) (rows : List (List Value)) :
    (mapCityRows hs c gen i rows)[k]? =
      (rows[k]?).map (fun r => applyRow hs c (cityCell ⟨gen (i + k)⟩) r) := by
  induction rows generalizing i k with
  | nil => simp [mapCityRows]
  | cons r rs ih =>
    cases k with
    | zero => simp [mapCityRows]
    | succ k =>
      simp only [mapCityRows, List.getElem?_cons_succ, ih (i + 1) k]
      have : i + 1 + k = i + (k + 1) := by omega
      rw [this]

theorem take_get_lt (l : List α) (k i : Nat) (h : i < (l.take k).length) :
    (l.take k)[i]? = l[i]? := by
  induction l generalizing k i with
  | nil => simp at h
  | cons x xs ih =>
    cases k with
    | zero => simp at h
    | succ k =>
      cases i with
      | zero => simp
      | succ i =>
        simp only [List.take_succ_cons, List.getElem?_cons_succ]
        exact ih k i (by simpa using h)

theorem generalize_age_ok (v : Value) (hv : cellOk v = true) :
    ∃ s, generalize_age v = .ok s := by
  cases v with
  | str s =>
    cases h : str_to_int s with
    | none => exact ⟨"Unknown", by simp [generalize_age, py_int, h]⟩
    | some n =>
      by_cases hb : 0 ≤ n ∧ n ≤ 120
      · exact ⟨scanRanges n AGE_RANGES, by simp [generalize_age, py_int, h, hb]⟩
      · exact ⟨"Unknown", by simp [generalize_age, py_int, h, hb]⟩
  | int n =>
    by_cases hb : 0 ≤ n ∧ n ≤ 120
    · exact ⟨scanRanges n AGE_RANGES, by simp [generalize_age, py_int, hb]⟩
    · exact ⟨"Unknown", by simp [generalize_age, py_int, hb]⟩
  | float q =>
    by_cases hb : 0 ≤ pytrunc q ∧ pytrunc q ≤ 120
    · exact ⟨scanRanges (pytrunc q) AGE_RANGES, by simp [generalize_age, py_int, hb]⟩
    · exact ⟨"Unknown", by simp [generalize_age, py_int, hb]⟩
  | inf neg => exact absurd hv Bool.false_ne_true
  | nan => exact ⟨"Unknown", rfl⟩
  | none => exact absurd hv Bool.false_ne_true

theorem stageJob_ok (t t' : Table) (c : String) (h : stageJob t c = .ok t') :
    t'.header = t.header ∧ t'.rows.length = t.rows.length ∧
      ∀ i j, t.header[j]? ≠ some c → cellAt t' i j = cellAt t i j := by
  unfold stageJob at h
  by_cases hc : t.header.contains c
  · rw [if_pos hc] at h
    cases h
    refine ⟨rfl, by simp, ?_⟩
    intro i j hj
    unfold cellAt
    simp only [List.getElem?_map]
    cases hr : t.rows[i]? with
    | none => rfl
    | some r => simp [applyRow_get_ne _ _ _ _ _ hj]
  · rw [if_neg hc] at h
    cases h

theorem stageJob_cellsOk (t t' : Table) (c : String) (h : stageJob t c = .ok t')
    (hn : CellsOk t.rows) : CellsOk t'.rows := by
  unfold stageJob at h
  by_cases hc : t.header.contains c
  · rw [if_pos hc] at h
    cases h
    intro r hr
    simp only [List.mem_map] at hr
    obtain ⟨r0, hr0, rfl⟩ := hr
    exact applyRow_cellsOk _ _ _ _ (fun v => rfl) (hn r0 hr0)
  · rw [if_neg hc] at h
    cases h

theorem stageJob_error (t : Table) (c : String) (hc : ¬ t.header.contains c) :
    stageJob t c = .error (.columnNotFound "job_title_column" c) := by
  unfold stageJob
  rw [if_neg hc]

theorem stageAge_ok (t t' : Table) (c : String) (h : stageAge t c = .ok t') :
    t'.header = t.header ∧ t'.rows.length = t.rows.length ∧
      ∀ i j, t.header[j]? ≠ some c → cellAt t' i j = cellAt t i j := by
  unfold stageAge at h
  by_cases hc : t.header.contains c
  · rw [if_pos hc] at h
    cases hm : mapE (applyRowE t.header c (fun v => (generalize_age v).map Value.str)) t.rows with
    | error e => rw [hm] at h; cases h
    | ok rs =>
      rw [hm] at h
      cases h
      refine ⟨rfl, mapE_ok_length _ _ _ hm, ?_⟩
      intro i j hj
      unfold cellAt
      cases hr : t.rows[i]? with
      | none =>
        have hlen := mapE_ok_length _ _ _ hm
        have : t.rows.length ≤ i := by
          by_contra hlt
          push_neg at hlt
          rw [List.getElem?_eq_none_iff] at hr
          omega
        have : rs[i]? = Option.none := by
          rw [List.getElem?_eq_none_iff]
          omega
        simp [this, hr]
      | some r =>
        obtain ⟨r', hr', hrs⟩ := mapE_ok_get _ _ _ hm i r hr
        simp [hrs, applyRowE_ok_get_ne _ _ _ _ _ _ hr' hj]
  · rw [if_neg hc] at h
    cases h

theorem stageAge_ok_of_cellsOk (t : Table) (c : String) (hc : t.header.contains c)
    (hn : CellsOk t.rows) : ∃ t', stageAge t c = .ok t' := by
  have hrows : ∀ r ∈ t.rows,
      ∃ r', applyRowE t.header c (fun v => (generalize_age v).map Value.str) r = .ok r' := by
    intro r hr
    refine applyRowE_ok_of _ _ _ _ ?_
    intro v hv
    obtain ⟨s, hs⟩ := generalize_age_ok v (hn r hr v hv)
    exact ⟨Value.str s, by simp [hs, Except.map]⟩
  obtain ⟨rs, hrs⟩ := mapE_ok_of _ _ hrows
  exact ⟨⟨t.header, rs⟩, by unfold stageAge; rw [if_pos hc, hrs]⟩

theorem stageAge_error (t : Table) (c : String) (hc : ¬ t.header.contains c) :
    stageAge t c = .error (.columnNotFound "age_column" c) := by
  unfold stageAge
  rw [if_neg hc]

theorem stageCity_ok (t t' : Table) (c : String) (gen : Nat → Except String String)
    (h : stageCity t c gen = .ok t') :
    t'.header = t.header ∧ t'.rows.length = t.rows.length ∧
      ∀ i j, t.header[j]? ≠ some c → cellAt t' i j = cellAt t i j := by
  unfold stageCity at h
  by_cases hc : t.header.contains c
  · rw [if_pos hc] at h
    cases h
    refine ⟨rfl, mapCityRows_length _ _ _ _ _, ?_⟩
    intro i j hj
    unfold cellAt
    simp only [mapCityRows_get]
    cases hr : t.rows[i]? with
    | none => rfl
    | some r => simp [applyRow_get_ne _ _ _ _ _ hj]
  · rw [if_neg hc] at h
    cases h

theorem stageCity_error (t : Table) (c : String) (gen : Nat → Except String String)
    (hc : ¬ t.header.contains c) :
    stageCity t c gen = .error (.columnNotFound "city_column" c) := by
  unfold stageCity
  rw [if_neg hc]

theorem pdHead_is_take (n : Int) (rows : List (List Value)) :
    ∃ k, pdHead n rows = rows.take k := by
  unfold pdHead
  by_cases h : 0 ≤ n
  · exact ⟨n.toNat, by rw [if_pos h]⟩
  · exact ⟨rows.length - (-n).toNat, by rw [if_neg h]⟩

theorem take_cellsOk (rows : List (List Value)) (k : Nat) (hn : CellsOk rows) :
    CellsOk (rows.take k) :=
  fun r hr => hn r (List.mem_of_mem_take hr)

theorem except_bind_ok (x : Except TransformError Table)
    (f : Table → Except TransformError Table) (u : Table)
    (h : x.bind f = .ok u) : ∃ w, x = .ok w ∧ f w = .ok u := by
  cases x with
  | ok w => exact ⟨w, rfl, h⟩
  | error e => cases h

theorem optLimit_header (lim : Option Int) (t : Table) : (optLimit lim t).header = t.header := by
  cases lim <;> rfl

theorem optLimit_rows_take (lim : Option Int) (t : Table) :
    ∃ k, (optLimit lim t).rows = t.rows.take k := by
  cases lim with
  | none => exact ⟨t.rows.length, by simp [optLimit]⟩
  | some n =>
    obtain ⟨k, hk⟩ := pdHead_is_take n t.rows
    exact ⟨k, by simp [optLimit, hk]⟩

theorem optLimit_cellsOk (lim : Option Int) (t : Table) (hn : CellsOk t.rows) :
    CellsOk (optLimit lim t).rows := by
  obtain ⟨k, hk⟩ := optLimit_rows_take lim t
  rw [hk]
  exact take_cellsOk _ _ hn

theorem optJob_ok (oc : Option String) (t t' : Table) (h : optJob oc t = .ok t') :
    t'.header = t.header ∧ t'.rows.length = t.rows.length ∧
      ∀ i j, (∀ c, oc = some c → t.header[j]? ≠ some c) → cellAt t' i j = cellAt t i j := by
  cases oc with
  | none => cases h; exact ⟨rfl, rfl, fun i j _ => rfl⟩
  | some c =>
    obtain ⟨h1, h2, h3⟩ := stageJob_ok t t' c h
    exact ⟨h1, h2, fun i j hj => h3 i j (hj c rfl)⟩

theorem optJob_cellsOk (oc : Option String) (t t' : Table) (h : optJob oc t = .ok t')
    (hn : CellsOk t.rows) : CellsOk t'.rows := by
  cases oc with
  | none => cases h; exact hn
  | some c => exact stageJob_cellsOk t t' c h hn

theorem optJob_exists (oc : Option String) (t : Table)
    (hc : ∀ c, oc = some c → t.header.contains c = true) :
    ∃ t', optJob oc t = .ok t' := by
  cases oc with
  | none => exact ⟨t, rfl⟩
  | some c =>
    refine ⟨⟨t.header, t.rows.map
      (applyRow t.header c (fun v => .str (generalize_job_title (astype_str v))))⟩, ?_⟩
    simp only [optJob]
    unfold stageJob
    rw [if_pos (hc c rfl)]

theorem optAge_ok (oc : Option String) (t t' : Table) (h : optAge oc t = .ok t') :
    t'.header = t.header ∧ t'.rows.length = t.rows.length ∧
      ∀ i j, (∀ c, oc = some c → t.header[j]? ≠ some c) → cellAt t' i j = cellAt t i j := by
  cases oc with
  | none => cases h; exact ⟨rfl, rfl, fun i j _ => rfl⟩
  | some c =>
    obtain ⟨h1, h2, h3⟩ := stageAge_ok t t' c h
    exact ⟨h1, h2, fun i j hj => h3 i j (hj c rfl)⟩

theorem optAge_exists (oc : Option String) (t : Table)
    (hc : ∀ c, oc = some c → t.header.contains c = true) (hn : CellsOk t.rows) :
    ∃ t', optAge oc t = .ok t' := by
  cases oc with
  | none => exact ⟨t, rfl⟩
  | some c => exact stageAge_ok_of_cellsOk t c (hc c rfl) hn

theorem optCity_ok (oc : Option String) (t t' : Table) (gen : Nat → Except String String)
    (h : optCity oc t gen = .ok t') :
    t'.header = t.header ∧ t'.rows.length = t.rows.length ∧
      ∀ i j, (∀ c, oc = some c → t.header[j]? ≠ some c) → cellAt t' i j = cellAt t i j := by
  cases oc with
  | none => cases h; exact ⟨rfl, rfl, fun i j _ => rfl⟩
  | some c =>
    obtain ⟨h1, h2, h3⟩ := stageCity_ok t t' c gen h
    exact ⟨h1, h2, fun i j hj => h3 i j (hj c rfl)⟩

theorem transform_ok_frame (t t' : Table) (o : Options) (gen : Nat → Except String String)
    (h : transform t o gen = .ok t') :
    t'.header = t.header ∧
      ∀ i j, i < t'.rows.length →
        (∀ c, o.job_title_column = some c → t.header[j]? ≠ some c) →
        (∀ c, o.age_column = some c → t.header[j]? ≠ some c) →
        (∀ c, o.city_column = some c → t.header[j]? ≠ some c) →
        cellAt t' i j = cellAt t i j := by
  unfold transform at h
  obtain ⟨t1, h1, h⟩ := except_bind_ok _ _ _ h
  obtain ⟨t2, h2, h3⟩ := except_bind_ok _ _ _ h
  obtain ⟨e1h, e1l, e1c⟩ := optJob_ok _ _ _ h1
  obtain ⟨e2h, e2l, e2c⟩ := optAge_ok _ _ _ h2
  obtain ⟨e3h, e3l, e3c⟩ := optCity_ok _ _ _ _ h3
  have hdr0 : (optLimit o.num_rows t).header = t.header := optLimit_header o.num_rows t
  have hdr1 : t1.header = t.header := by rw [e1h, hdr0]
  have hdr2 : t2.header = t.header := by rw [e2h, hdr1]
  have hdr' : t'.header = t.header := by rw [e3h, hdr2]
  refine ⟨hdr', ?_⟩
  intro i j hi hcj hca hcc
  obtain ⟨k, hk⟩ := optLimit_rows_take o.num_rows t
  have len0 : t'.rows.length = (optLimit o.num_rows t).rows.length := by
    rw [e3l, e2l, e1l]
  have step3 : cellAt t' i j = cellAt t2 i j := by
    refine e3c i j ?_
    intro c hc
    rw [hdr2]
    exact hcc c hc
  have step2 : cellAt t2 i j = cellAt t1 i j := by
    refine e2c i j ?_
    intro c hc
    rw [hdr1]
    exact hca c hc
  have step1 : cellAt t1 i j = cellAt (optLimit o.num_rows t) i j := by
    refine e1c i j ?_
    intro c hc
    rw [hdr0]
    exact hcj c hc
  have step0 : cellAt (optLimit o.num_rows t) i j = cellAt t i j := by
    unfold cellAt
    rw [hk]
    rw [take_get_lt t.rows k i (by rw [← hk, ← len0]; exact hi)]
  rw [step3, step2, step1, step0]

theorem generalize_job_title_idem (s : String) :
    generalize_job_title (generalize_job_title s) = generalize_job_title s := by
  cases hf : JOB_TITLE_MAPPING.find? (fun p => p.1 == s) with
  | none =>
    have hs : generalize_job_title s = s := by unfold generalize_job_title; rw [hf]
    rw [hs]
    exact hs
  | some p =>
    have hs : generalize_job_title s = p.2 := by unfold generalize_job_title; rw [hf]
    rw [hs]
    have hmem : p ∈ JOB_TITLE_MAPPING := List.mem_of_find?_eq_some hf
    fin_cases hmem <;> decide

theorem applyRow_idem (hs : List String) (c : String) (f : Value → Value)
    (hf : ∀ v, f (f v) = f v) (vs : List Value) :
    applyRow hs c f (applyRow hs c f vs) = applyRow hs c f vs := by
  induction hs generalizing vs with
  | nil => cases vs <;> rfl
  | cons h tl ih =>
    cases vs with
    | nil => rfl
    | cons v vs =>
      by_cases hc : h = c
      · simp [applyRow, hc, hf, ih]
      · simp [applyRow, hc, ih]

/-! ## Claim theorems -/

theorem scanRanges_nomatch (n : Int) (rs : List (Int × Int))
    (h : ∀ r ∈ rs, ¬ (r.1 ≤ n ∧ n ≤ r.2)) : scanRanges n rs = "Unknown" := by
  induction rs with
  | nil => rfl
  | cons r rest ih =>
    rw [scanRanges, if_neg (h r (List.mem_cons_self r rest))]
    exact ih fun q hq => h q (List.mem_cons_of_mem r hq)

theorem scanRanges_gap (n : Int) (h : n < 18 ∨ 96 ≤ n) : scanRanges n AGE_RANGES = "Unknown" := by
  refine scanRanges_nomatch n AGE_RANGES ?_
  intro r hr
  fin_cases hr <;> omega

/-- C1: for every integer age in a defined band of `AGE_RANGES`, the
bucketing function returns the label `low ++ "-" ++ high` of the (unique)
band whose inclusive bounds contain it; in particular the string input
`"30"` yields `"26-35"`. -/
theorem age_band_label_correct :
    (∀ (a : Int) (r : Int × Int), r ∈ AGE_RANGES → r.1 ≤ a → a ≤ r.2 →
      generalize_age (Value.int a) = .ok (toString r.1 ++ "-" ++ toString r.2)) ∧
    generalize_age (Value.str "30") = .ok "26-35" := by
  constructor
  · intro a r hmem hlo hhi
    fin_cases hmem <;> (interval_cases a <;> decide)
  · decide

/-- C1 witness: instantiation at age 40 in band (36, 45). -/
theorem age_band_label_correct_witness :
    generalize_age (Value.int 40) = .ok "36-45" :=
  age_band_label_correct.1 40 (36, 45) (by decide) (by decide) (by decide)

/-- C2 counterexample: `generalize_age` is not total on reachable
cells.  `read_csv` parses an `"inf"` token (or an overflowing literal
such as `1e999`) to float64 infinity; `int()` then raises
`OverflowError`, which the `except ValueError` handler does not catch,
so the age stage raises, the transform aborts with the generic
unexpected-error path, and no output is written — refuting the claim
that no input causes the run to abort. -/
theorem bucket_age_abort_counterexample :
    generalize_age (Value.inf false) = .error .overflowError ∧
    transform ⟨["Age"], [[Value.inf false]]⟩
        ⟨Option.none, some "Age", Option.none, Option.none⟩ G0
      = .error (.unexpected .overflowError) ∧
    run ⟨["Age"], [[Value.inf false]]⟩
        ⟨Option.none, some "Age", Option.none, Option.none⟩ G0
      = (Option.none, 0) := by
  decide

/-- C2 amended: on every cell value that is neither Python `None`
(which `read_csv` never produces) nor a float infinity (on which the
uncaught `OverflowError` aborts the run, per the counterexample),
`generalize_age` returns a value and never raises: `"Unknown"` when
`int()` conversion fails, when the converted value lies outside
`[0, 120]`, or when it lies in `[0, 120]` but in a gap not covered by
any band (below 18, or 96 to 120); and some label is returned in every
such case. -/
theorem bucket_age_total_unknown :
    ∀ v : Value, cellOk v = true →
      ((py_int v = .error .valueError → generalize_age v = .ok "Unknown") ∧
        (∀ n : Int, py_int v = .ok n →
          ((n < 0 ∨ 120 < n) → generalize_age v = .ok "Unknown") ∧
          ((0 ≤ n ∧ n ≤ 120 ∧ (n < 18 ∨ 96 ≤ n)) → generalize_age v = .ok "Unknown")) ∧
        (∃ s, generalize_age v = .ok s)) := by
  intro v hv
  refine ⟨?_, ?_, generalize_age_ok v hv⟩
  · intro h
    simp only [generalize_age, h]
  · intro n h
    constructor
    · intro hout
      have hcond : ¬ (0 ≤ n ∧ n ≤ 120) := by omega
      simp only [generalize_age, h]
      rw [if_pos hcond]
    · intro hgap
      have hcond : ¬ ¬ (0 ≤ n ∧ n ≤ 120) := fun hfn => hfn ⟨by omega, by omega⟩
      simp only [generalize_age, h]
      rw [if_neg hcond, scanRanges_gap n (by omega)]

/-- C2 witness: an unparsable string, an out-of-range value, and an
in-range gap value all yield `"Unknown"`. -/
theorem bucket_age_total_unknown_witness :
    generalize_age (Value.str "abc") = .ok "Unknown" ∧
    generalize_age (Value.int 130) = .ok "Unknown" ∧
    generalize_age (Value.int 10) = .ok "Unknown" :=
  ⟨(bucket_age_total_unknown (Value.str "abc") (by decide)).1 (by decide),
    ((bucket_age_total_unknown (Value.int 130) (by decide)).2.1 130 (by decide)).1 (by decide),
    ((bucket_age_total_unknown (Value.int 10) (by decide)).2.1 10 (by decide)).2 (by decide)⟩

/-- C7: `generalize_job_title` maps every key of `JOB_TITLE_MAPPING` to
its mapped value and is the identity on every string that is not a key
(identity law); being a total function, it never fails and never drops a
value. -/
theorem map_category_identity_law :
    (∀ k v, (k, v) ∈ JOB_TITLE_MAPPING → generalize_job_title k = v) ∧
    (∀ s, s ∉ JOB_TITLE_MAPPING.map Prod.fst → generalize_job_title s = s) := by
  constructor
  · intro k v h
    fin_cases h <;> rfl
  · intro s hs
    unfold generalize_job_title
    cases hf : JOB_TITLE_MAPPING.find? (fun p => p.1 == s) with
    | none => rfl
    | some p =>
      exfalso
      have hmem := List.mem_of_find?_eq_some hf
      have hbeq := List.find?_some hf
      have hp : p.1 = s := by simpa using hbeq
      exact hs (by rw [← hp]; exact List.mem_map_of_mem Prod.fst hmem)

/-- C7 witness: a mapped key and an unmapped key. -/
theorem map_category_identity_law_witness :
    generalize_job_title "Software Engineer" = "Engineer" ∧
    generalize_job_title "Astronaut" = "Astronaut" :=
  ⟨map_category_identity_law.1 "Software Engineer" "Engineer" (by decide),
    map_category_identity_law.2 "Astronaut" (by decide)⟩

/-- C8: for a fixed state of the generation source, the region returned
by `generalize_city_to_state` is the same for any two city inputs (the
city argument does not influence the returned value); and when the
source fails, the function returns `none` instead of raising. -/
theorem resolve_region_input_independent :
    (∀ (fake : Faker) (c1 c2 : String),
      generalize_city_to_state fake c1 = generalize_city_to_state fake c2) ∧
    (∀ (fake : Faker) (city e : String), fake.state = .error e →
      generalize_city_to_state fake city = Option.none) := by
  constructor
  · intro fake c1 c2
    rfl
  · intro fake city e h
    unfold generalize_city_to_state
    rw [h]

/-- C8 witness: a failing generator yields `none`. -/
theorem resolve_region_input_independent_witness :
    generalize_city_to_state ⟨.error "generation failed"⟩ "Springfield" = Option.none :=
  resolve_region_input_independent.2 ⟨.error "generation failed"⟩ "Springfield"
    "generation failed" rfl

/-- C9: the job-title stage renders each cell with `astype(str)` before
mapping, so a NaN cell becomes the literal string `"nan"` and an integer
cell 42 becomes `"42"` even though the mapper itself does not recognise
either string. -/
theorem astype_coercion_changes_cells :
    astype_str Value.nan = "nan" ∧ astype_str (Value.int 42) = "42" ∧
    transform tblCoerce ⟨some "Job Title", Option.none, Option.none, Option.none⟩ G0
      = .ok ⟨["Job Title"], [[Value.str "nan"], [Value.str "42"]]⟩ := by
  decide

/-- C10: `int()` truncates the float 25.9 toward zero, so the float cell
buckets to `"18-25"`, while the numerically equal string `"25.9"` fails
integer conversion and yields `"Unknown"` — a different label. -/
theorem float_string_age_mismatch :
    generalize_age (Value.float (mkRat 259 10)) = .ok "18-25" ∧
    generalize_age (Value.str "25.9") = .ok "Unknown" ∧
    ("18-25" : String) ≠ "Unknown" := by
  decide

theorem except_bind_ok_eq (u : Table) (f : Table → Except TransformError Table) :
    (Except.ok u : Except TransformError Table).bind f = f u := rfl

theorem except_bind_error_eq (e : TransformError) (f : Table → Except TransformError Table) :
    (Except.error e : Except TransformError Table).bind f = .error e := rfl

/-- C3 counterexample: with `rowLimit = -2` on a one-row table,
`df.head` keeps zero rows while `min(N, len(table))` is `-2`, so the
length equation of the claim fails for this integer `N`. -/
theorem row_limit_min_counterexample :
    (transform tblOneRow ⟨Option.none, Option.none, Option.none, some (-2)⟩ G0).map
        (fun u => (u.rows.length : Int)) = .ok 0 ∧
    (0 : Int) ≠ min (-2) ((tblOneRow.rows.length : Int)) := by
  decide

/-- C3 amended: for every table and every nonnegative integer `N` given
as the row limit (with no column option set), the transformed table is
the order-preserving prefix of the input and its length is
`min(N, len(table))`; if `N` exceeds the row count, all rows are
retained. -/
theorem row_limit_prefix (t : Table) (N : Int) (gen : Nat → Except String String)
    (hN : 0 ≤ N) :
    transform t ⟨Option.none, Option.none, Option.none, some N⟩ gen
        = .ok ⟨t.header, t.rows.take N.toNat⟩ ∧
    ((t.rows.take N.toNat).length : Int) = min N (t.rows.length : Int) := by
  constructor
  · simp only [transform, optJob, optAge, optCity, optLimit, pdHead, if_pos hN,
      except_bind_ok_eq]
  · simp only [List.length_take]
    omega

/-- C3 witness: limit 5 on a one-row table keeps the single row. -/
theorem row_limit_prefix_witness :
    transform tblOneRow ⟨Option.none, Option.none, Option.none, some 5⟩ G0
        = .ok ⟨tblOneRow.header, tblOneRow.rows.take (5 : Int).toNat⟩ ∧
    ((tblOneRow.rows.take (5 : Int).toNat).length : Int)
        = min 5 ((tblOneRow.rows.length : Int)) :=
  row_limit_prefix tblOneRow 5 G0 (by decide)

/-- C4 counterexample: naming the absent column `"Salary"` on a 3-column
table aborts the transform with the column-not-found error and produces
no output file — but the process exit status is 0, not non-zero: `main`
catches the `ValueError`, logs it, and returns normally. -/
theorem missing_column_exit_status_counterexample :
    transform tblPeople ⟨some "Salary", Option.none, Option.none, Option.none⟩ G0
        = .error (.columnNotFound "job_title_column" "Salary") ∧
    run tblPeople ⟨some "Salary", Option.none, Option.none, Option.none⟩ G0
        = (Option.none, 0) := by
  decide

/-- C4 amended: on a table with no `None` and no infinite-float cells
(an infinite age cell would instead abort the age stage with an
uncaught `OverflowError` before a later column check is reached), if
any named option column is absent from the header, the transform aborts
with a column-not-found error that names one of the absent named
columns, and no output file is produced; the process nevertheless exits
with status 0, reporting the error only through the log. -/
theorem missing_column_aborts (t : Table) (o : Options) (gen : Nat → Except String String)
    (c : String) (hn : CellsOk t.rows)
    (hc : o.job_title_column = some c ∨ o.age_column = some c ∨ o.city_column = some c)
    (habs : t.header.contains c = false) :
    (∃ arg c', transform t o gen = .error (.columnNotFound arg c') ∧
        t.header.contains c' = false ∧
        (o.job_title_column = some c' ∨ o.age_column = some c' ∨ o.city_column = some c')) ∧
    (run t o gen).1 = Option.none ∧ (run t o gen).2 = 0 := by
  have ht0h : (optLimit o.num_rows t).header = t.header := optLimit_header o.num_rows t
  have ht0n : CellsOk (optLimit o.num_rows t).rows := optLimit_cellsOk o.num_rows t hn
  have key : ∃ arg c', transform t o gen = .error (.columnNotFound arg c') ∧
      t.header.contains c' = false ∧
      (o.job_title_column = some c' ∨ o.age_column = some c' ∨ o.city_column = some c') := by
    by_cases hjm : ∃ cj, o.job_title_column = some cj ∧ t.header.contains cj = false
    · obtain ⟨cj, hcj, hmiss⟩ := hjm
      refine ⟨"job_title_column", cj, ?_, hmiss, Or.inl hcj⟩
      unfold transform
      rw [hcj]
      simp only [optJob]
      rw [stageJob_error _ _ (by rw [ht0h, hmiss]; exact Bool.false_ne_true), except_bind_error_eq]
    · have hjall : ∀ c0, o.job_title_column = some c0 → t.header.contains c0 = true := by
        intro c0 h0
        cases hb : t.header.contains c0 with
        | false => exact absurd ⟨c0, h0, hb⟩ hjm
        | true => rfl
      obtain ⟨t1, h1⟩ := optJob_exists o.job_title_column (optLimit o.num_rows t)
        (fun c0 h0 => by rw [ht0h]; exact hjall c0 h0)
      obtain ⟨e1h, _, _⟩ := optJob_ok _ _ _ h1
      have ht1h : t1.header = t.header := by rw [e1h, ht0h]
      have ht1n : CellsOk t1.rows := optJob_cellsOk _ _ _ h1 ht0n
      by_cases ham : ∃ ca, o.age_column = some ca ∧ t.header.contains ca = false
      · obtain ⟨ca, hca, hmiss⟩ := ham
        refine ⟨"age_column", ca, ?_, hmiss, Or.inr (Or.inl hca)⟩
        unfold transform
        rw [h1, except_bind_ok_eq, hca]
        simp only [optAge]
        rw [stageAge_error _ _ (by rw [ht1h, hmiss]; exact Bool.false_ne_true), except_bind_error_eq]
      · have haall : ∀ c0, o.age_column = some c0 → t.header.contains c0 = true := by
          intro c0 h0
          cases hb : t.header.contains c0 with
          | false => exact absurd ⟨c0, h0, hb⟩ ham
          | true => rfl
        obtain ⟨t2, h2⟩ := optAge_exists o.age_column t1
          (fun c0 h0 => by rw [ht1h]; exact haall c0 h0) ht1n
        obtain ⟨e2h, _, _⟩ := optAge_ok _ _ _ h2
        have ht2h : t2.header = t.header := by rw [e2h, ht1h]
        have hcc : o.city_column = some c := by
          rcases hc with hj | ha | hcy
          · rw [hjall c hj] at habs
            cases habs
          · rw [haall c ha] at habs
            cases habs
          · exact hcy
        refine ⟨"city_column", c, ?_, habs, Or.inr (Or.inr hcc)⟩
        unfold transform
        rw [h1, except_bind_ok_eq, h2, except_bind_ok_eq, hcc]
        simp only [optCity]
        exact stageCity_error _ _ gen (by rw [ht2h, habs]; exact Bool.false_ne_true)
  obtain ⟨arg, c', herr, hmiss', hnamed⟩ := key
  refine ⟨⟨arg, c', herr, hmiss', hnamed⟩, ?_, ?_⟩ <;> (unfold run; rw [herr])

/-- C4 witness: the age option names the absent column `"Salary"`. -/
theorem missing_column_aborts_witness :
    (∃ arg c', transform tblPeople ⟨Option.none, some "Salary", Option.none, Option.none⟩ G0
          = .error (.columnNotFound arg c') ∧
        tblPeople.header.contains c' = false ∧
        ((⟨Option.none, some "Salary", Option.none, Option.none⟩ : Options).job_title_column
            = some c' ∨
          (⟨Option.none, some "Salary", Option.none, Option.none⟩ : Options).age_column
            = some c' ∨
          (⟨Option.none, some "Salary", Option.none, Option.none⟩ : Options).city_column
            = some c')) ∧
    (run tblPeople ⟨Option.none, some "Salary", Option.none, Option.none⟩ G0).1
        = Option.none ∧
    (run tblPeople ⟨Option.none, some "Salary", Option.none, Option.none⟩ G0).2 = 0 :=
  missing_column_aborts tblPeople ⟨Option.none, some "Salary", Option.none, Option.none⟩ G0
    "Salary" (by unfold CellsOk; decide) (Or.inr (Or.inl rfl)) (by decide)

theorem transform_no_age_city (t : Table) (o : Options) (gen : Nat → Except String String)
    (ha : o.age_column = Option.none) (hcy : o.city_column = Option.none) :
    transform t o gen = optJob o.job_title_column (optLimit o.num_rows t) := by
  unfold transform
  rw [ha, hcy]
  cases h : optJob o.job_title_column (optLimit o.num_rows t) with
  | ok u => rw [except_bind_ok_eq]; rfl
  | error e => rw [except_bind_error_eq]

/-- C5 counterexample: generalizing the age column twice with the same
options differs from doing it once — `30` buckets to `"26-35"`, which
on the second pass fails integer conversion and becomes `"Unknown"`. -/
theorem transform_idempotent_counterexample :
    (transform tblAge ⟨Option.none, some "Age", Option.none, Option.none⟩ G0).bind
        (fun u => transform u ⟨Option.none, some "Age", Option.none, Option.none⟩ G0)
      ≠ transform tblAge ⟨Option.none, some "Age", Option.none, Option.none⟩ G0 := by
  decide

/-- C5 amended: the pipeline is idempotent only without the age and city
stages: when the age and city columns are unset and any row limit is
nonnegative, a second application of `transform` with the same options
returns the first result unchanged (the age stage destroys idempotence,
as the counterexample shows, and the city stage redraws random values). -/
theorem transform_idempotent_without_age_city (t t' : Table) (o : Options)
    (gen gen' : Nat → Except String String)
    (ha : o.age_column = Option.none) (hcy : o.city_column = Option.none)
    (hnum : ∀ n, o.num_rows = some n → 0 ≤ n)
    (h : transform t o gen = .ok t') :
    transform t' o gen' = .ok t' := by
  rw [transform_no_age_city t o gen ha hcy] at h
  rw [transform_no_age_city t' o gen' ha hcy]
  obtain ⟨e1h, e1l, _⟩ := optJob_ok _ _ _ h
  have hlim : optLimit o.num_rows t' = t' := by
    cases hnr : o.num_rows with
    | none => rfl
    | some n =>
      have hN : 0 ≤ n := hnum n hnr
      have hlen : t'.rows.length ≤ n.toNat := by
        rw [e1l]
        rw [hnr] at e1l ⊢
        simp only [optLimit, pdHead, if_pos hN]
        simp [List.length_take]
      simp only [optLimit, pdHead, if_pos hN]
      rw [List.take_of_length_le hlen]
  rw [hlim]
  cases hoc : o.job_title_column with
  | none =>
    rw [hoc] at h
    cases h
    rfl
  | some c =>
    rw [hoc] at h
    simp only [optJob] at h ⊢
    unfold stageJob at h ⊢
    by_cases hcont : (optLimit o.num_rows t).header.contains c
    · rw [if_pos hcont] at h
      have hh' : t'.header = (optLimit o.num_rows t).header := by
        cases h
        rfl
      rw [if_pos (by rw [hh']; exact hcont)]
      cases h
      have hg : (applyRow (optLimit o.num_rows t).header c
            (fun v => Value.str (generalize_job_title (astype_str v))) ∘
          applyRow (optLimit o.num_rows t).header c
            (fun v => Value.str (generalize_job_title (astype_str v)))) =
          applyRow (optLimit o.num_rows t).header c
            (fun v => Value.str (generalize_job_title (astype_str v))) := by
        funext r
        exact applyRow_idem _ _ _
          (fun v => by simp [astype_str, generalize_job_title_idem]) r
      simp only [List.map_map, hg]
    · rw [if_neg hcont] at h
      cases h

/-- C5 witness: re-running the job-title transform on its own output
returns that output unchanged. -/
theorem transform_idempotent_without_age_city_witness :
    transform tblTwoCols' ⟨some "A", Option.none, Option.none, Option.none⟩ G0
      = .ok tblTwoCols' :=
  transform_idempotent_without_age_city tblTwoCols tblTwoCols'
    ⟨some "A", Option.none, Option.none, Option.none⟩ G0 G0 rfl rfl
    (fun n h => nomatch h) (by decide)

/-- C6: the transform never touches a column that is not named in the
options: on success the output header equals the input header, and every
cell of an unnamed column equals the corresponding input cell (row `i`
of the output corresponds to row `i` of the input, row order being
preserved by the prefix-only row limit). -/
theorem transform_frame_no_op (t t' : Table) (o : Options) (gen : Nat → Except String String)
    (h : transform t o gen = .ok t') :
    t'.header = t.header ∧
      ∀ i j cn, i < t'.rows.length → t.header[j]? = some cn →
        o.job_title_column ≠ some cn → o.age_column ≠ some cn → o.city_column ≠ some cn →
        cellAt t' i j = cellAt t i j := by
  obtain ⟨hh, hc⟩ := transform_ok_frame t t' o gen h
  refine ⟨hh, ?_⟩
  intro i j cn hi hj hoj hoa hoc
  refine hc i j hi ?_ ?_ ?_ <;> intro c hcs
  · rw [hj]
    intro he
    cases he
    exact hoj hcs
  · rw [hj]
    intro he
    cases he
    exact hoa hcs
  · rw [hj]
    intro he
    cases he
    exact hoc hcs

/-- C6 witness: with only column `"A"` named, the cell of column `"B"`
passes through unchanged. -/
theorem transform_frame_no_op_witness :
    cellAt tblTwoCols' 0 1 = cellAt tblTwoCols 0 1 :=
  (transform_frame_no_op tblTwoCols tblTwoCols'
      ⟨some "A", Option.none, Option.none, Option.none⟩ G0 (by decide)).2
    0 1 "B" (by decide) (by decide) (by decide) (by decide) (by decide)
